import Mathlib

/-!
# Quarantine patient tracker (`app.js`): status and eligibility engine

A shallow embedding of the domain logic of `app.js` and theorems about it.

Modelling conventions.

* The patient collection is the JSON array kept in `localStorage` under `LS_KEY`; it is a
  `List Patient`.  Every handler starts with `loadPatients()` and writes back with
  `savePatients(patients)`; a handler is a function from the stored collection (and the values
  read from the form fields) to the message it shows and the collection stored afterwards.
  A handler that returns before `savePatients` leaves the stored collection as it was.
* `today()` is a parameter (the `YYYY-MM-DD` string it would return).
* Temperatures are finite JavaScript numbers.  Every finite double is a rational number and
  `<`, `===` and `Math.min` do not round, so temperatures are elements of `ℚ`.
  The values read from the form (`parseFloat` of the temperature, `parseInt` of age and bed)
  are `Parsed ℚ` / `Parsed Int`: `NaN` or a finite number; `±Infinity` is not among them.
* A stored `bed` or `age` is an integer-valued number, an `Int`; `<=` and `===` on them do not
  round.
* The numbers that `addNewPatient` computes for the new id are doubles.  `JsInt` holds the
  integer-valued doubles, `NaN` and `±Infinity`; `toDouble` rounds an integer to the nearest
  double (ties to the even significand, overflow to `±Infinity`), and `parseInt`, `+ 1` and
  `String(...)` go through it.  For more than 20 significant decimal digits ECMAScript lets
  `parseInt` approximate; the model takes the correctly rounded value.
* The quotient and the product in a percentage of `renderKPIs` are rounded to doubles by
  `toDoubleRat` (counts are array lengths, far inside the range of normal doubles).
* `String.prototype.localeCompare` is compared by code unit; on `YYYY-MM-DD` strings (digits and
  hyphens at fixed positions) this is what every locale collation gives.
* The object `map` of `feverFreeDays` is an association list in insertion order
  (`Object.keys` order for keys that are not array indices, such as dates); a date is not the
  name of a property that `{}` inherits from `Object.prototype`.
-/

namespace Quarantine

/-! ## Data model -/

/-- An entry of `p.records`: `{date, temp}`. -/
structure TempRecord where
  date : String
  temp : ℚ
  deriving DecidableEq

/-- An entry of `p.visits`: `{date, notes}`. -/
structure Visit where
  date : String
  notes : String
  deriving DecidableEq

/-- A patient object as built by `addNewPatient`. -/
structure Patient where
  id : String
  bed : Int
  name : String
  age : Int
  records : List TempRecord
  visits : List Visit
  discharged : Bool
  deceased : Bool
  deriving DecidableEq

/-- Result of `parseFloat` / `parseInt`: `NaN` or a number. -/
inductive Parsed (α : Type) where
  | nan : Parsed α
  | num (v : α) : Parsed α
  deriving DecidableEq

/-- The constant `const TEMP_THRESHOLD = 37.5`. -/
def TEMP_THRESHOLD : ℚ := 37.5

/-! ## `feverFreeDays` -/

/-- Property read `map[k]` on the object `map`; `none` is `undefined`. -/
def mapGet (m : List (String × ℚ)) (k : String) : Option ℚ :=
  match m with
  | [] => none
  | (k', v) :: rest => if k' = k then some v else mapGet rest k

/-- Property write `map[k] = v`: an existing key keeps its place, a new key goes last. -/
def mapSet (m : List (String × ℚ)) (k : String) (v : ℚ) : List (String × ℚ) :=
  match m with
  | [] => [(k, v)]
  | (k', v') :: rest => if k' = k then (k', v) :: rest else (k', v') :: mapSet rest k v

/-- The loop body
`map[r.date] = map[r.date]===undefined ? r.temp : Math.min(map[r.date], r.temp)`. -/
def mapStep (m : List (String × ℚ)) (r : TempRecord) : List (String × ℚ) :=
  mapSet m r.date (match mapGet m r.date with
    | none => r.temp
    | some v => min v r.temp)

/-- The object `map` after `p.records.forEach(...)`. -/
def buildMap (rs : List TempRecord) : List (String × ℚ) :=
  rs.foldl mapStep []

/-- The call `a.localeCompare(b)`, as a sign; strings are compared by code unit. -/
def localeCompare (a b : String) : Int :=
  if a < b then -1 else if b < a then 1 else 0

/-- The array `Object.keys(map).sort((a,b)=>b.localeCompare(a))`: `a` is placed before `b`
when the comparator is not positive. -/
def sortedDates (m : List (String × ℚ)) : List String :=
  (m.map Prod.fst).insertionSort (fun a b => localeCompare b a ≤ 0)

/-- The loop `for(const d of dates){ if(map[d] < TEMP_THRESHOLD) streak++; else break; }`;
`undefined < 37.5` is false. -/
def streakLoop (m : List (String × ℚ)) : List String → Nat → Nat
  | [], streak => streak
  | d :: ds, streak =>
    match mapGet m d with
    | some v => if v < TEMP_THRESHOLD then streakLoop m ds (streak + 1) else streak
    | none => streak

/-- The function `feverFreeDays(p)`. -/
def feverFreeDays (p : Patient) : Nat :=
  if p.records.length = 0 then 0
  else
    let map := buildMap p.records
    let dates := sortedDates map
    streakLoop map dates 0

/-! ## `computeStatus` -/

/-- The object `{label, cls}` returned by `computeStatus`. -/
structure Status where
  label : String
  cls : String
  deriving DecidableEq

/-- The object `{label:'Discharged', cls:'green'}`. -/
def Status.Discharged : Status := ⟨"Discharged", "green"⟩
/-- The object `{label:'Deceased', cls:'red'}`. -/
def Status.Deceased : Status := ⟨"Deceased", "red"⟩
/-- The object `{label:'Needs Temp', cls:'yellow'}`. -/
def Status.NeedsTemp : Status := ⟨"Needs Temp", "yellow"⟩
/-- The object `{label:'Needs Doctor Visit', cls:'blue'}`. -/
def Status.NeedsVisit : Status := ⟨"Needs Doctor Visit", "blue"⟩
/-- The object `{label:'Eligible Discharge', cls:'green'}`. -/
def Status.EligibleDischarge : Status := ⟨"Eligible Discharge", "green"⟩
/-- The object `{label:'Stable Today', cls:'green'}`. -/
def Status.StableToday : Status := ⟨"Stable Today", "green"⟩

/-- The function `computeStatus(p)`, with `d = today()` passed in. -/
def computeStatus (p : Patient) (d : String) : Status :=
  if p.discharged then Status.Discharged
  else if p.deceased then Status.Deceased
  else
    let hasTempToday := p.records.any (fun r => r.date == d)
    let hasVisitToday := p.visits.any (fun v => v.date == d)
    if !hasTempToday then Status.NeedsTemp
    else if !hasVisitToday then Status.NeedsVisit
    else if feverFreeDays p ≥ 3 then Status.EligibleDischarge
    else Status.StableToday

/-! ## Handlers that change the collection -/

/-- How a handler ended: the message it shows, or the exception it throws. -/
inductive Outcome where
  /-- Message `'Choose a patient'` / `'Pick a patient'`: the select element has no value. -/
  | noSelection
  /-- Message `'Enter a valid temperature'`. -/
  | invalidValue
  /-- Message `'Temperature already recorded today'` / `'Already visited today'`. -/
  | duplicateForDate
  /-- Message `'Needs 3 fever-free days'`. -/
  | notEligible
  /-- Message `"Enter patient name"`. -/
  | emptyName
  /-- Message `"Enter valid age"`. -/
  | invalidAge
  /-- Message `"Enter valid bed no."`. -/
  | invalidBed
  /-- Message `"Bed already assigned"`. -/
  | bedTaken
  /-- The dialog `confirm("Mark as deceased?")` was answered with no: nothing is shown. -/
  | cancelled
  /-- The call `patients.find` gave `undefined` and a property of it is read: a `TypeError`
  is thrown. -/
  | typeError
  /-- The handler ran through `savePatients(patients)` and shows its success message. -/
  | ok
  deriving DecidableEq

/-- The effect on the array `patients` of assigning to the object `p` returned by
`patients.find(x=>x.id===pid)`: the first element whose id is `pid` becomes `f p`. -/
def updateFound (pid : String) (f : Patient → Patient) : List Patient → List Patient
  | [] => []
  | x :: xs => if x.id = pid then f x :: xs else x :: updateFound pid f xs

/-- The handler `recordTemperature()`; `pid` is `el('nursePatient').value`, `tempVal` is
`parseFloat(el('tempInput').value)` and `dt` is `today()`. -/
def recordTemperature (patients : List Patient) (pid : String) (tempVal : Parsed ℚ)
    (dt : String) : Outcome × List Patient :=
  if pid = "" then (Outcome.noSelection, patients)
  else
    match tempVal with
    | Parsed.nan => (Outcome.invalidValue, patients)
    | Parsed.num t =>
      if t = 0 then (Outcome.invalidValue, patients)
      else
        match patients.find? (fun x => x.id == pid) with
        | none => (Outcome.typeError, patients)
        | some p =>
          if p.records.any (fun r => r.date == dt) then (Outcome.duplicateForDate, patients)
          else
            (Outcome.ok,
              updateFound pid (fun q => { q with records := q.records ++ [⟨dt, t⟩] }) patients)

/-- The handler `markDoctorVisit()`; `notes` is `el('docNotes').value || ''`. -/
def markDoctorVisit (patients : List Patient) (pid : String) (notes : String)
    (dt : String) : Outcome × List Patient :=
  if pid = "" then (Outcome.noSelection, patients)
  else
    match patients.find? (fun x => x.id == pid) with
    | none => (Outcome.typeError, patients)
    | some p =>
      if p.visits.any (fun v => v.date == dt) then (Outcome.duplicateForDate, patients)
      else
        (Outcome.ok,
          updateFound pid (fun q => { q with visits := q.visits ++ [⟨dt, notes⟩] }) patients)

/-- The handler `adminDischarge()`. -/
def adminDischarge (patients : List Patient) (pid : String) : Outcome × List Patient :=
  if pid = "" then (Outcome.noSelection, patients)
  else
    match patients.find? (fun x => x.id == pid) with
    | none => (Outcome.typeError, patients)
    | some p =>
      if feverFreeDays p < 3 then (Outcome.notEligible, patients)
      else (Outcome.ok, updateFound pid (fun q => { q with discharged := true }) patients)

/-- The handler `adminMarkDeath()`; `confirmed` is the answer to `confirm("Mark as deceased?")`. -/
def adminMarkDeath (patients : List Patient) (pid : String) (confirmed : Bool) :
    Outcome × List Patient :=
  if pid = "" then (Outcome.noSelection, patients)
  else if confirmed then
    match patients.find? (fun x => x.id == pid) with
    | none => (Outcome.typeError, patients)
    | some _ => (Outcome.ok, updateFound pid (fun q => { q with deceased := true }) patients)
  else (Outcome.cancelled, patients)

/-! ## `addNewPatient` and the id it generates -/

/-- The characters removed by `parseInt` before it reads a number (`WhiteSpace` and
`LineTerminator` of ECMAScript). -/
def isJsWhiteSpace (c : Char) : Bool :=
  c.toNat ∈ [0x9, 0xA, 0xB, 0xC, 0xD, 0x20, 0xA0, 0x1680, 0x2028, 0x2029, 0x202F, 0x205F,
    0x3000, 0xFEFF] || (0x2000 ≤ c.toNat && c.toNat ≤ 0x200A)

/-- Value of a decimal digit. -/
def decDigitValue (c : Char) : Nat := c.toNat - 48

/-- Whether `c` is a hexadecimal digit. -/
def isHexDigit (c : Char) : Bool :=
  c.isDigit || (97 ≤ c.toNat && c.toNat ≤ 102) || (65 ≤ c.toNat && c.toNat ≤ 70)

/-- Value of a hexadecimal digit. -/
def hexDigitValue (c : Char) : Nat :=
  if c.isDigit then c.toNat - 48
  else if 97 ≤ c.toNat then c.toNat - 87
  else c.toNat - 55

/-- The integer written by a string of digits in the given radix. -/
def digitsValue (radix : Nat) (val : Char → Nat) (cs : List Char) : Nat :=
  cs.foldl (fun acc c => acc * radix + val c) 0

/-- An integer-valued JavaScript number, `NaN` or `±Infinity`; `-0` is not told from `0`. -/
inductive JsInt where
  | nan : JsInt
  | negInf : JsInt
  | posInf : JsInt
  | int (z : Int) : JsInt
  deriving DecidableEq

/-- The double nearest to the natural number `m`, ties going to the even significand; every
natural number up to `2 ^ 53` is a double.  A result of `2 ^ 1024` or more stands for
overflow. -/
def roundNat (m : Nat) : Nat :=
  if m ≤ 2 ^ 53 then m
  else
    let shift := Nat.log2 m - 52
    let q := m / 2 ^ shift
    let r := m % 2 ^ shift
    let half := 2 ^ (shift - 1)
    let q1 := if r < half then q else if half < r then q + 1 else if q % 2 = 0 then q else q + 1
    q1 * 2 ^ shift

/-- The Number value of the integer `z`. -/
def toDouble (z : Int) : JsInt :=
  let r := roundNat z.natAbs
  if 2 ^ 1024 ≤ r then (if z < 0 then JsInt.negInf else JsInt.posInf)
  else JsInt.int (if z < 0 then -(r : Int) else (r : Int))

/-- The sign read by `parseInt` after the white space: `-1` for a leading `-`, else `1`. -/
def parseIntSign (s : List Char) : Int :=
  match s with
  | '-' :: _ => -1
  | _ => 1

/-- The input of `parseInt` with a leading `+` or `-` removed. -/
def parseIntDropSign (s : List Char) : List Char :=
  match s with
  | '-' :: t => t
  | '+' :: t => t
  | _ => s

/-- The magnitude read by `parseInt`: a prefix `0x` / `0X` selects radix 16, the longest run
of digits is converted, and the result is `NaN` when that run is empty. -/
def parseIntMagnitude (s : List Char) : Parsed Nat :=
  match s with
  | '0' :: 'x' :: t | '0' :: 'X' :: t =>
    let z := t.takeWhile isHexDigit
    if z.isEmpty then Parsed.nan else Parsed.num (digitsValue 16 hexDigitValue z)
  | _ =>
    let z := s.takeWhile Char.isDigit
    if z.isEmpty then Parsed.nan else Parsed.num (digitsValue 10 decDigitValue z)

/-- The call `parseInt(s)` with no radix argument: leading white space is skipped, then a sign
and a magnitude are read, and the integer they denote is converted to a Number. -/
def parseInt (s : String) : JsInt :=
  let s1 := s.data.dropWhile isJsWhiteSpace
  match parseIntMagnitude (parseIntDropSign s1) with
  | Parsed.nan => JsInt.nan
  | Parsed.num m => toDouble (parseIntSign s1 * (m : Int))

/-- The expression `x || 0` for a number `x`: `NaN` and `0` give `0`. -/
def orZero (x : JsInt) : JsInt :=
  match x with
  | JsInt.nan => JsInt.int 0
  | y => y

/-- The call `s.replace('P','')`: the first occurrence of `P` is removed. -/
def replaceFirstP (s : String) : String := String.mk (s.data.erase 'P')

/-- The decimal numbers with at least `t` trailing zeros next to the positive double `z` that
convert to `z`, if any: the nearer one, and of two equally near ones the one whose digits
before the zeros form an even number. -/
def decimalCandidate (z : Nat) (t : Nat) : Option Nat :=
  let lo := z / 10 ^ t * 10 ^ t
  let hi := lo + 10 ^ t
  let okLo := decide (lo ≠ 0) && decide (roundNat lo = z)
  let okHi := decide (roundNat hi = z)
  if okLo && okHi then
    (if z - lo < hi - z then some lo
     else if hi - z < z - lo then some hi
     else if (lo / 10 ^ t) % 2 = 0 then some lo else some hi)
  else if okLo then some lo
  else if okHi then some hi
  else none

/-- The decimal number with the fewest significant digits that converts to the positive
integer-valued double `z` (the number `s × 10 ^ (n - k)` of `Number::toString`): the most
trailing zeros are tried first; a double is below `2 ^ 1024 < 10 ^ 309`. -/
def shortestDecimal (z : Nat) : Nat :=
  ((List.range 310).reverse.findSome? (decimalCandidate z)).getD z

/-- The exponent notation `d.ddde+x` of `Number::toString` for a decimal number `v` of more
than 21 digits. -/
def exponentForm (v : Nat) : String :=
  let ds := Nat.toDigits 10 v
  let sig := (ds.reverse.dropWhile (fun c => c == '0')).reverse
  let e := Nat.repr (ds.length - 1)
  match sig with
  | [] => "0"
  | [d] => String.mk [d] ++ "e+" ++ e
  | d :: rest => String.mk (d :: '.' :: rest) ++ "e+" ++ e

/-- The conversion `String(z)` for a positive integer-valued double `z`: plain digits below
`10 ^ 21`, exponent notation from there on. -/
def positiveToString (z : Nat) : String :=
  let v := shortestDecimal z
  if v < 10 ^ 21 then Nat.repr v else exponentForm v

/-- The conversion `String(x)`. -/
def numberToString (x : JsInt) : String :=
  match x with
  | JsInt.nan => "NaN"
  | JsInt.posInf => "Infinity"
  | JsInt.negInf => "-Infinity"
  | JsInt.int z =>
    if z = 0 then "0"
    else if z < 0 then "-" ++ positiveToString z.natAbs
    else positiveToString z.natAbs

/-- The call `s.padStart(3,'0')`. -/
def padStart3 (s : String) : String :=
  String.mk (List.replicate (3 - s.length) '0' ++ s.data)

/-- The larger of two numbers as `Math.max` takes it: `NaN` if one of them is `NaN`. -/
def jsMax (a b : JsInt) : JsInt :=
  match a, b with
  | JsInt.nan, _ => JsInt.nan
  | _, JsInt.nan => JsInt.nan
  | JsInt.posInf, _ => JsInt.posInf
  | _, JsInt.posInf => JsInt.posInf
  | JsInt.negInf, y => y
  | x, JsInt.negInf => x
  | JsInt.int x, JsInt.int y => JsInt.int (max x y)

/-- The call `Math.max(...ids)` for a non-empty array `x :: xs`. -/
def mathMax (x : JsInt) (xs : List JsInt) : JsInt := xs.foldl jsMax x

/-- The sum `x + 1` of numbers. -/
def jsAddOne (x : JsInt) : JsInt :=
  match x with
  | JsInt.int z => toDouble (z + 1)
  | y => y

/-- The array `ids`: `patients.map(p=>parseInt((p.id||'P000').replace('P',''))||0)`. -/
def idNumbers (patients : List Patient) : List JsInt :=
  patients.map (fun p => orZero (parseInt (replaceFirstP (if p.id = "" then "P000" else p.id))))

/-- The constant `nextId` of `addNewPatient`:
`'P' + String((ids.length?Math.max(...ids):0)+1).padStart(3,'0')`. -/
def nextId (patients : List Patient) : String :=
  "P" ++ padStart3 (numberToString (jsAddOne
    (match idNumbers patients with
      | [] => JsInt.int 0
      | x :: xs => mathMax x xs)))

/-- The handler `addNewPatient()`; `name` is the trimmed name field, `age` and `bed` are the
`parseInt` of their fields. -/
def addNewPatient (patients : List Patient) (name : String) (age bed : Parsed Int) :
    Outcome × List Patient :=
  if name = "" then (Outcome.emptyName, patients)
  else
    match age with
    | Parsed.nan => (Outcome.invalidAge, patients)
    | Parsed.num a =>
      if a = 0 ∨ a ≤ 0 then (Outcome.invalidAge, patients)
      else
        match bed with
        | Parsed.nan => (Outcome.invalidBed, patients)
        | Parsed.num b =>
          if b = 0 ∨ b ≤ 0 then (Outcome.invalidBed, patients)
          else if patients.any (fun p => p.bed == b && !p.discharged && !p.deceased) then
            (Outcome.bedTaken, patients)
          else
            (Outcome.ok, patients ++ [{
              id := nextId patients
              bed := b
              name := name
              age := a
              records := []
              visits := []
              discharged := false
              deceased := false }])

/-! ## `renderKPIs` -/

/-- The call `Math.round(x)`: the nearest integer, halves going up. -/
def mathRound (x : ℚ) : Int := ⌊x + 1 / 2⌋

/-- The integer nearest to `x`, halves going to the even one. -/
def roundHalfEven (x : ℚ) : Int :=
  let f := ⌊x⌋
  let r := x - f
  if r < 1 / 2 then f else if 1 / 2 < r then f + 1 else if f % 2 = 0 then f else f + 1

/-- The double nearest to the rational number `q`, ties going to the even significand; the
spacing of doubles at `q` is `2 ^ (e - 52)` for `2 ^ e ≤ |q| < 2 ^ (e + 1)`, and `2 ^ (-1074)`
below `2 ^ (-1022)`.  Overflow does not arise for the quotients and products of
`renderKPIs`. -/
def toDoubleRat (q : ℚ) : ℚ :=
  if q = 0 then 0
  else
    let e := Int.log 2 |q|
    let ulp : ℚ := 2 ^ (max e (-1022) - 52)
    roundHalfEven (q / ulp) * ulp

/-- The expression `total?Math.round(count/total*100):0`: the quotient and the product are
doubles. -/
def percentOf (count total : Nat) : Int :=
  if total ≠ 0 then
    mathRound (toDoubleRat (toDoubleRat ((count : ℚ) / (total : ℚ)) * 100))
  else 0

/-- The five figures shown by `renderKPIs()`. -/
structure Kpis where
  total : Nat
  tempCompliancePct : Int
  visitCompliancePct : Int
  dischargedCount : Nat
  mortalityPct : Int
  deriving DecidableEq

/-- The function `renderKPIs()`, with `d = today()` passed in. -/
def renderKPIs (patients : List Patient) (d : String) : Kpis :=
  let total := patients.length
  let discharged := (patients.filter (fun p => p.discharged)).length
  let deceased := (patients.filter (fun p => p.deceased)).length
  let tempsToday := (patients.filter (fun p => p.records.any (fun r => r.date == d))).length
  let visitsToday := (patients.filter (fun p => p.visits.any (fun v => v.date == d))).length
  { total := total
    tempCompliancePct := percentOf tempsToday total
    visitCompliancePct := percentOf visitsToday total
    dischargedCount := discharged
    mortalityPct := percentOf deceased total }

/-! ## Specification-side definitions for the fever-free streak -/

/-- Whether `s` has the shape `YYYY-MM-DD` (digits and two hyphens). -/
def isIsoDate (s : String) : Bool :=
  match s.data with
  | [y1, y2, y3, y4, '-', m1, m2, '-', d1, d2] =>
    [y1, y2, y3, y4, m1, m2, d1, d2].all Char.isDigit
  | _ => false

/-- The distinct record dates of a patient, in descending order. -/
def distinctDatesDesc (p : Patient) : List String :=
  Finset.sort (· ≥ ·) (p.records.map (·.date)).toFinset

/-- The minimum temperature recorded for date `d`, if there is a record for `d`. -/
def minTempOn (p : Patient) (d : String) : Option ℚ :=
  ((p.records.filter (fun r => r.date = d)).map (·.temp)).min?

/-- The minimum temperature recorded for `d` is strictly below 37.5. -/
def feverFreeOn (p : Patient) (d : String) : Bool :=
  match minTempOn p d with
  | some v => decide (v < 37.5)
  | none => false

/-- Length of the longest prefix of the descending distinct dates on which the minimum
temperature is strictly below 37.5. -/
def feverFreeDaysSpec (p : Patient) : Nat :=
  ((distinctDatesDesc p).takeWhile (feverFreeOn p)).length

/-- One step of the running minimum kept in `map[d]`. -/
def minStep (acc : Option ℚ) (t : ℚ) : Option ℚ :=
  match acc with
  | none => some t
  | some v => some (min v t)

/-! ## Specification-side definitions for the handlers -/

/-- Every patient has at most one temperature record and at most one visit per date. -/
def OnePerDate (patients : List Patient) : Prop :=
  ∀ p ∈ patients, (p.records.map (·.date)).Nodup ∧ (p.visits.map (·.date)).Nodup

instance (patients : List Patient) : Decidable (OnePerDate patients) := by
  unfold OnePerDate
  infer_instance

/-! ## Specification-side definitions for patient ids -/

/-- Whether `s` is `P` followed by one or more decimal digits. -/
def isPatientId (s : String) : Bool :=
  match s.data with
  | 'P' :: ds => !ds.isEmpty && ds.all Char.isDigit
  | _ => false

/-- The number written in decimal by a list of digit characters, most significant first. -/
def decimalValue (cs : List Char) : Nat :=
  Nat.ofDigits 10 ((cs.map (fun c => c.toNat - 48)).reverse)

/-- The numeric suffix of an id: the number written after its first character. -/
def numericSuffix (s : String) : Nat := decimalValue s.data.tail

/-- The largest numeric suffix among the ids of the collection, 0 when it is empty. -/
def maxSuffix (patients : List Patient) : Nat :=
  (patients.map (fun p => numericSuffix p.id)).foldr max 0

/-- The string `s` padded on the left with zeros to at least 3 characters. -/
def zeroPad3 (s : String) : String :=
  if s.length ≥ 3 then s
  else if s.length = 2 then "0" ++ s
  else if s.length = 1 then "00" ++ s
  else "000" ++ s

/-! ## Lemmas on the map -/

theorem mapGet_mapSet (m : List (String × ℚ)) (k k' : String) (v : ℚ) :
    mapGet (mapSet m k v) k' = if k = k' then some v else mapGet m k' := by
  induction m with
  | nil => simp [mapSet, mapGet]
  | cons kv rest ih =>
    obtain ⟨k0, v0⟩ := kv
    by_cases h0 : k0 = k
    · subst h0
      by_cases h1 : k0 = k' <;> simp [mapSet, mapGet, h1]
    · by_cases h1 : k0 = k'
      · subst h1
        have : ¬ k = k0 := fun h => h0 h.symm
        simp [mapSet, mapGet, h0, this]
      · simp [mapSet, mapGet, h0, h1, ih]

theorem keys_mapSet (m : List (String × ℚ)) (k : String) (v : ℚ) :
    (mapSet m k v).map Prod.fst =
      if k ∈ m.map Prod.fst then m.map Prod.fst else m.map Prod.fst ++ [k] := by
  induction m with
  | nil => simp [mapSet]
  | cons kv rest ih =>
    obtain ⟨k0, v0⟩ := kv
    by_cases h0 : k0 = k
    · subst h0
      simp [mapSet]
    · have h0' : ¬ k = k0 := fun h => h0 h.symm
      simp only [mapSet, h0, if_false, List.map_cons, ih, List.mem_cons, h0', false_or]
      split_ifs <;> simp

theorem keys_mapStep_nodup (m : List (String × ℚ)) (r : TempRecord)
    (h : (m.map Prod.fst).Nodup) : ((mapStep m r).map Prod.fst).Nodup := by
  unfold mapStep
  rw [keys_mapSet]
  split_ifs with hk
  · exact h
  · exact List.Nodup.append h (List.nodup_singleton _) (by simpa using hk)

theorem mem_keys_mapStep (m : List (String × ℚ)) (r : TempRecord) (d : String) :
    d ∈ (mapStep m r).map Prod.fst ↔ d ∈ m.map Prod.fst ∨ d = r.date := by
  unfold mapStep
  rw [keys_mapSet]
  split_ifs with hk
  · constructor
    · intro h; exact Or.inl h
    · rintro (h | h)
      · exact h
      · rw [h]; exact hk
  · simp

theorem keys_foldl_nodup (rs : List TempRecord) (m : List (String × ℚ))
    (h : (m.map Prod.fst).Nodup) : ((rs.foldl mapStep m).map Prod.fst).Nodup := by
  induction rs generalizing m with
  | nil => simpa using h
  | cons r rs ih => exact ih _ (keys_mapStep_nodup m r h)

theorem mem_keys_foldl (rs : List TempRecord) (m : List (String × ℚ)) (d : String) :
    d ∈ (rs.foldl mapStep m).map Prod.fst ↔
      d ∈ m.map Prod.fst ∨ d ∈ rs.map (·.date) := by
  induction rs generalizing m with
  | nil => simp
  | cons r rs ih =>
    rw [List.foldl_cons, ih, mem_keys_mapStep]
    simp only [List.map_cons, List.mem_cons]
    tauto

theorem mapGet_mapStep (m : List (String × ℚ)) (r : TempRecord) (d : String) :
    mapGet (mapStep m r) d = if r.date = d then minStep (mapGet m d) r.temp else mapGet m d := by
  unfold mapStep
  rw [mapGet_mapSet]
  split_ifs with h
  · subst h
    cases mapGet m r.date <;> rfl
  · rfl

theorem mapGet_foldl (rs : List TempRecord) (m : List (String × ℚ)) (d : String) :
    mapGet (rs.foldl mapStep m) d =
      ((rs.filter (fun r => r.date = d)).map (·.temp)).foldl minStep (mapGet m d) := by
  induction rs generalizing m with
  | nil => simp
  | cons r rs ih =>
    rw [List.foldl_cons, ih, mapGet_mapStep]
    by_cases h : r.date = d
    · simp [h, List.filter_cons]
    · simp [h, List.filter_cons]

theorem foldl_minStep_some (ts : List ℚ) (a : ℚ) :
    ts.foldl minStep (some a) = some (ts.foldl min a) := by
  induction ts generalizing a with
  | nil => rfl
  | cons t ts ih => simp [List.foldl_cons, minStep, ih]

theorem mapGet_buildMap (p : Patient) (d : String) :
    mapGet (buildMap p.records) d = minTempOn p d := by
  unfold buildMap minTempOn
  rw [mapGet_foldl]
  generalize (p.records.filter (fun r => r.date = d)).map (·.temp) = ts
  cases ts with
  | nil => simp [mapGet]
  | cons t ts => simp [mapGet, List.min?, minStep, foldl_minStep_some]

theorem streakLoop_eq (m : List (String × ℚ)) (ds : List String) (n : Nat) :
    streakLoop m ds n = n + (ds.takeWhile (fun d =>
      match mapGet m d with
      | some v => decide (v < TEMP_THRESHOLD)
      | none => false)).length := by
  induction ds generalizing n with
  | nil => simp [streakLoop]
  | cons d ds ih =>
    unfold streakLoop
    cases hm : mapGet m d with
    | none => simp [List.takeWhile_cons, hm]
    | some v =>
      by_cases hv : v < TEMP_THRESHOLD
      · simp [List.takeWhile_cons, hm, hv, ih]; omega
      · simp [List.takeWhile_cons, hm, hv]

theorem localeCompare_nonpos (a b : String) : localeCompare b a ≤ 0 ↔ a ≥ b := by
  unfold localeCompare
  split_ifs with h1 h2
  · simpa using le_of_lt h1
  · simpa using h2
  · simp only [le_refl, true_iff]
    exact le_of_not_lt h2

theorem sortedDates_buildMap (p : Patient) :
    sortedDates (buildMap p.records) = distinctDatesDesc p := by
  unfold sortedDates distinctDatesDesc
  have htot : IsTotal String (fun a b => localeCompare b a ≤ 0) :=
    ⟨fun a b => by
      rw [localeCompare_nonpos, localeCompare_nonpos]
      exact le_total b a⟩
  have htrans : IsTrans String (fun a b => localeCompare b a ≤ 0) :=
    ⟨fun a b c => by
      rw [localeCompare_nonpos, localeCompare_nonpos, localeCompare_nonpos]
      exact fun h1 h2 => le_trans h2 h1⟩
  apply List.eq_of_perm_of_sorted (r := (· ≥ ·))
  · refine (List.perm_insertionSort _ _).trans ?_
    rw [List.perm_ext_iff_of_nodup]
    · intro d
      rw [Finset.mem_sort, List.mem_toFinset]
      unfold buildMap
      rw [mem_keys_foldl]
      simp
    · exact keys_foldl_nodup _ _ (by simp)
    · exact Finset.sort_nodup _ _
  · exact (List.sorted_insertionSort _ _).imp (fun {a b} h => (localeCompare_nonpos a b).1 h)
  · exact Finset.sort_sorted _ _

theorem feverFreeDays_eq_spec (p : Patient) : feverFreeDays p = feverFreeDaysSpec p := by
  unfold feverFreeDays feverFreeDaysSpec
  split_ifs with h
  · have : p.records = [] := List.length_eq_zero.mp h
    simp [distinctDatesDesc, this]
  · simp only []
    rw [streakLoop_eq, sortedDates_buildMap, Nat.zero_add]
    congr 2
    funext d
    rw [mapGet_buildMap]
    unfold feverFreeOn TEMP_THRESHOLD
    rfl

theorem distinctDatesDesc_sorted (p : Patient) : (distinctDatesDesc p).Sorted (· > ·) :=
  Finset.sort_sorted_gt _

theorem mem_distinctDatesDesc (p : Patient) (d : String) :
    d ∈ distinctDatesDesc p ↔ ∃ r ∈ p.records, r.date = d := by
  simp [distinctDatesDesc]

theorem minTempOn_eq_some (p : Patient) (d : String) (v : ℚ) :
    minTempOn p d = some v ↔
      (∃ r ∈ p.records, r.date = d ∧ r.temp = v) ∧ ∀ r ∈ p.records, r.date = d → v ≤ r.temp := by
  unfold minTempOn
  have hanti : Std.Antisymm (fun a b : ℚ => a ≤ b) := ⟨fun h1 h2 => le_antisymm h1 h2⟩
  rw [List.min?_eq_some_iff (fun a => le_refl a) (fun a b => min_choice a b)
    (fun a b c => le_min_iff)]
  simp only [List.mem_map, List.mem_filter, decide_eq_true_eq]
  constructor
  · rintro ⟨⟨r, ⟨hr, hd⟩, hv⟩, hmin⟩
    exact ⟨⟨r, hr, hd, hv⟩, fun r' hr' hd' => hmin _ ⟨r', ⟨hr', hd'⟩, rfl⟩⟩
  · rintro ⟨⟨r, hr, hd, hv⟩, hmin⟩
    refine ⟨⟨r, ⟨hr, hd⟩, hv⟩, ?_⟩
    rintro b ⟨r', ⟨hr', hd'⟩, rfl⟩
    exact hmin r' hr' hd'

/-! ## Lemmas on `updateFound` -/

theorem updateFound_append (pid : String) (f : Patient → Patient) (pre post : List Patient)
    (x : Patient) (hpre : ∀ q ∈ pre, q.id ≠ pid) (hx : x.id = pid) :
    updateFound pid f (pre ++ x :: post) = pre ++ f x :: post := by
  induction pre with
  | nil => simp [updateFound, hx]
  | cons a pre ih =>
    have ha : a.id ≠ pid := hpre a (List.mem_cons_self _ _)
    have ih' := ih (fun q hq => hpre q (List.mem_cons_of_mem _ hq))
    simp [updateFound, ha, ih']

theorem find_append (pid : String) (pre post : List Patient) (x : Patient)
    (hpre : ∀ q ∈ pre, q.id ≠ pid) (hx : x.id = pid) :
    (pre ++ x :: post).find? (fun y => y.id == pid) = some x := by
  induction pre with
  | nil => simp [hx]
  | cons a pre ih =>
    have ha : a.id ≠ pid := hpre a (List.mem_cons_self _ _)
    have ih' := ih (fun q hq => hpre q (List.mem_cons_of_mem _ hq))
    simpa [List.find?_cons, ha] using ih'

theorem find_split (patients : List Patient) (pid : String) (p : Patient)
    (h : patients.find? (fun x => x.id == pid) = some p) :
    p.id = pid ∧ ∃ pre post, patients = pre ++ p :: post ∧ ∀ q ∈ pre, q.id ≠ pid := by
  rw [List.find?_eq_some] at h
  obtain ⟨hp, pre, post, hsplit, hpre⟩ := h
  refine ⟨by simpa using hp, pre, post, hsplit, ?_⟩
  intro q hq
  simpa using hpre q hq

theorem mem_updateFound (pid : String) (f : Patient → Patient) (patients : List Patient)
    (x : Patient) (hx : x ∈ updateFound pid f patients) :
    x ∈ patients ∨ ∃ q, patients.find? (fun y => y.id == pid) = some q ∧ x = f q := by
  induction patients with
  | nil => simp [updateFound] at hx
  | cons a rest ih =>
    by_cases ha : a.id = pid
    · simp only [updateFound, ha, if_true, List.mem_cons] at hx
      rcases hx with hx | hx
      · right
        exact ⟨a, by simp [List.find?_cons, ha], hx⟩
      · left
        exact List.mem_cons_of_mem _ hx
    · simp only [updateFound, ha, if_false, List.mem_cons] at hx
      rcases hx with hx | hx
      · left
        rw [hx]
        exact List.mem_cons_self _ _
      · rcases ih hx with h | ⟨q, hq, hxq⟩
        · left
          exact List.mem_cons_of_mem _ h
        · right
          exact ⟨q, by simpa [List.find?_cons, ha] using hq, hxq⟩

theorem find_mem (patients : List Patient) (pid : String) (p : Patient)
    (h : patients.find? (fun x => x.id == pid) = some p) : p ∈ patients := by
  obtain ⟨_, pre, post, hsplit, _⟩ := find_split patients pid p h
  rw [hsplit]
  simp

theorem onePerDate_updateFound (pid : String) (f : Patient → Patient) (patients : List Patient)
    (h : OnePerDate patients)
    (hf : ∀ q, patients.find? (fun y => y.id == pid) = some q →
      ((f q).records.map (·.date)).Nodup ∧ ((f q).visits.map (·.date)).Nodup) :
    OnePerDate (updateFound pid f patients) := by
  intro x hx
  rcases mem_updateFound pid f patients x hx with hx | ⟨q, hq, hxq⟩
  · exact h x hx
  · rw [hxq]
    exact hf q hq

theorem nodup_append_date (ds : List String) (d : String) (hn : ds.Nodup) (hd : d ∉ ds) :
    (ds ++ [d]).Nodup :=
  List.Nodup.append hn (List.nodup_singleton d) (by simpa using hd)

/-! ## Lemmas on doubles and their decimal form -/

theorem pow53_lt_pow1024 : (2 : Nat) ^ 53 < 2 ^ 1024 := by
  apply Nat.pow_lt_pow_right
  · decide
  · decide

theorem pow53_lt_pow21 : (2 : Nat) ^ 53 < 10 ^ 21 := by norm_num

theorem roundNat_of_le (m : Nat) (h : m ≤ 2 ^ 53) : roundNat m = m := by
  unfold roundNat
  rw [if_pos h]

theorem toDouble_of_le (m : Nat) (h : m ≤ 2 ^ 53) : toDouble (m : Int) = JsInt.int (m : Int) := by
  unfold toDouble
  have hr : roundNat (m : Int).natAbs = m := by
    rw [Int.natAbs_ofNat]
    exact roundNat_of_le m h
  have hlt : ¬ (2 ^ 1024 ≤ m) := by
    have := pow53_lt_pow1024
    omega
  have hneg : ¬ ((m : Int) < 0) := by omega
  simp only [hr, hlt, hneg, if_false]

/-- Above `2 ^ 53` a rounded number is at least the power of two below the number. -/
theorem le_roundNat (m : Nat) (h : 2 ^ 53 < m) : 2 ^ Nat.log2 m ≤ roundNat m := by
  have hm0 : m ≠ 0 := by
    intro h0
    rw [h0] at h
    exact absurd h (by norm_num)
  have hlog : 53 ≤ Nat.log2 m := (Nat.le_log2 hm0).2 (le_of_lt h)
  have hself : 2 ^ Nat.log2 m ≤ m := Nat.log2_self_le hm0
  have hpow : 2 ^ 52 * 2 ^ (Nat.log2 m - 52) = 2 ^ Nat.log2 m := by
    rw [← pow_add]
    congr 1
    omega
  have hq : 2 ^ 52 ≤ m / 2 ^ (Nat.log2 m - 52) := by
    rw [Nat.le_div_iff_mul_le (Nat.pos_pow_of_pos _ (by norm_num))]
    rw [hpow]
    exact hself
  unfold roundNat
  rw [if_neg (not_le.mpr h)]
  simp only []
  rw [← hpow]
  apply Nat.mul_le_mul_right
  split_ifs <;> omega

theorem roundNat_eq_of_lt (v z : Nat) (hz : z < 2 ^ 53) (h : roundNat v = z) : v = z := by
  by_cases hv : v ≤ 2 ^ 53
  · rw [roundNat_of_le v hv] at h
    exact h
  · have hv' : 2 ^ 53 < v := not_le.mp hv
    have h1 := le_roundNat v hv'
    have hm0 : v ≠ 0 := by
      intro h0
      rw [h0] at hv'
      exact absurd hv' (by norm_num)
    have hlog : 53 ≤ Nat.log2 v := (Nat.le_log2 hm0).2 (le_of_lt hv')
    have h2 : 2 ^ 53 ≤ 2 ^ Nat.log2 v := Nat.pow_le_pow_right (by norm_num) hlog
    omega

theorem log2_eq_53 (v : Nat) (h1 : 2 ^ 53 ≤ v) (h2 : v < 2 ^ 54) : Nat.log2 v = 53 := by
  have hm0 : v ≠ 0 := by
    intro h0
    rw [h0] at h1
    exact absurd h1 (by norm_num)
  have ha : 53 ≤ Nat.log2 v := (Nat.le_log2 hm0).2 h1
  have hb : Nat.log2 v < 54 := (Nat.log2_lt hm0).2 h2
  omega

theorem roundNat_pow53_succ : roundNat (2 ^ 53 + 1) = 2 ^ 53 := by
  have hlog : Nat.log2 (2 ^ 53 + 1) = 53 := log2_eq_53 _ (by norm_num) (by norm_num)
  unfold roundNat
  rw [hlog]
  norm_num

/-- A number that rounds to `2 ^ 53` is `2 ^ 53` or `2 ^ 53 + 1`. -/
theorem roundNat_eq_pow53 (v : Nat) (h : roundNat v = 2 ^ 53) : v = 2 ^ 53 ∨ v = 2 ^ 53 + 1 := by
  by_cases hv : v ≤ 2 ^ 53
  · rw [roundNat_of_le v hv] at h
    exact Or.inl h
  · have hv' : 2 ^ 53 < v := not_le.mp hv
    by_cases hbig : v < 2 ^ 54
    · have hlog : Nat.log2 v = 53 := log2_eq_53 v (le_of_lt hv') hbig
      unfold roundNat at h
      rw [if_neg hv, hlog] at h
      norm_num at h
      norm_num at hv' hbig
      split_ifs at h <;> omega
    · have hm0 : v ≠ 0 := by
        intro h0
        rw [h0] at hv'
        exact absurd hv' (by norm_num)
      have hlog : 54 ≤ Nat.log2 v := (Nat.le_log2 hm0).2 (not_lt.mp hbig)
      have h1 := le_roundNat v hv'
      have h2 : 2 ^ 54 ≤ 2 ^ Nat.log2 v := Nat.pow_le_pow_right (by norm_num) hlog
      rw [h] at h1
      have h3 : (2 : Nat) ^ 53 < 2 ^ 54 := by norm_num
      omega

theorem decimalCandidate_sound (z t v : Nat) (h : decimalCandidate z t = some v) :
    roundNat v = z ∧ (v = z / 10 ^ t * 10 ^ t ∨ v = z / 10 ^ t * 10 ^ t + 10 ^ t) := by
  unfold decimalCandidate at h
  by_cases hA : z / 10 ^ t * 10 ^ t ≠ 0 ∧ roundNat (z / 10 ^ t * 10 ^ t) = z
  · by_cases hB : roundNat (z / 10 ^ t * 10 ^ t + 10 ^ t) = z
    · simp only [hA.1, hA.2, hB, ne_eq, not_false_eq_true, decide_True, Bool.and_self,
        if_true] at h
      split_ifs at h <;> cases h
      · exact ⟨hA.2, Or.inl rfl⟩
      · exact ⟨hB, Or.inr rfl⟩
      · exact ⟨hA.2, Or.inl rfl⟩
      · exact ⟨hB, Or.inr rfl⟩
    · simp only [hA.1, hA.2, hB, ne_eq, not_false_eq_true, decide_True, decide_False,
        Bool.and_self, Bool.and_false, Bool.false_eq_true, if_true, if_false] at h
      cases h
      exact ⟨hA.2, Or.inl rfl⟩
  · have hA' : (decide (z / 10 ^ t * 10 ^ t ≠ 0) &&
        decide (roundNat (z / 10 ^ t * 10 ^ t) = z)) = false := by
      rw [Bool.and_eq_false_iff]
      by_cases h0 : z / 10 ^ t * 10 ^ t ≠ 0
      · right
        exact decide_eq_false (fun hr => hA ⟨h0, hr⟩)
      · left
        exact decide_eq_false h0
    by_cases hB : roundNat (z / 10 ^ t * 10 ^ t + 10 ^ t) = z
    · simp only [hA', hB, decide_True, Bool.false_and, Bool.false_eq_true, if_true,
        if_false] at h
      cases h
      exact ⟨hB, Or.inr rfl⟩
    · simp only [hA', hB, decide_False, Bool.false_and, Bool.false_eq_true, if_false] at h
      cases h

theorem decimalCandidate_pow53_zero : decimalCandidate (2 ^ 53) 0 = some (2 ^ 53) := by
  unfold decimalCandidate
  have h1 : roundNat (2 ^ 53) = 2 ^ 53 := roundNat_of_le _ (le_refl _)
  have h2 : roundNat (2 ^ 53 + 1) = 2 ^ 53 := roundNat_pow53_succ
  norm_num at h1 h2
  simp [h1, h2]

theorem decimalCandidate_eq (z t v : Nat) (hz : z ≤ 2 ^ 53)
    (h : decimalCandidate z t = some v) : v = z := by
  obtain ⟨hr, hv⟩ := decimalCandidate_sound z t v h
  rcases Nat.lt_or_eq_of_le hz with hlt | heq
  · exact roundNat_eq_of_lt v z hlt hr
  · subst heq
    cases t with
    | zero =>
      rw [decimalCandidate_pow53_zero] at h
      cases h
      rfl
    | succ t =>
      have hdvd : 10 ∣ v := by
        have h10 : (10 : Nat) ∣ 10 ^ (t + 1) := dvd_pow_self 10 (Nat.succ_ne_zero t)
        rcases hv with hv | hv
        · rw [hv]
          exact Dvd.dvd.mul_left h10 _
        · rw [hv]
          exact Dvd.dvd.add (Dvd.dvd.mul_left h10 _) h10
      have hmod : v % 10 = 0 := Nat.mod_eq_zero_of_dvd hdvd
      rcases roundNat_eq_pow53 v hr with hv2 | hv2
      · rw [hv2] at hmod
        norm_num at hmod
      · rw [hv2] at hmod
        norm_num at hmod

theorem shortestDecimal_of_le (z : Nat) (hz : z ≤ 2 ^ 53) : shortestDecimal z = z := by
  unfold shortestDecimal
  cases hf : (List.range 310).reverse.findSome? (decimalCandidate z) with
  | none => rfl
  | some v =>
    obtain ⟨t, _, ht⟩ := List.exists_of_findSome?_eq_some hf
    simp only [Option.getD_some]
    exact decimalCandidate_eq z t v hz ht

theorem positiveToString_of_le (z : Nat) (hz : z ≤ 2 ^ 53) : positiveToString z = Nat.repr z := by
  unfold positiveToString
  simp only [shortestDecimal_of_le z hz]
  have : z < 10 ^ 21 := lt_of_le_of_lt hz pow53_lt_pow21
  rw [if_pos this]

theorem numberToString_of_le (z : Nat) (h0 : 0 < z) (hz : z ≤ 2 ^ 53) :
    numberToString (JsInt.int (z : Int)) = Nat.repr z := by
  unfold numberToString
  have h1 : ¬ ((z : Int) = 0) := by omega
  have h2 : ¬ ((z : Int) < 0) := by omega
  simp only [h1, h2, if_false, Int.natAbs_ofNat]
  exact positiveToString_of_le z hz

/-! ## Lemmas on decimal strings and the generated id -/

theorem decimalValue_cons (c : Char) (cs : List Char) :
    decimalValue (c :: cs) = (c.toNat - 48) * 10 ^ cs.length + decimalValue cs := by
  unfold decimalValue
  rw [List.map_cons, List.reverse_cons, Nat.ofDigits_append, Nat.ofDigits_singleton]
  simp only [List.length_reverse, List.length_map]
  ring

theorem decimalValue_nil : decimalValue [] = 0 := by
  simp [decimalValue]

theorem digitsValue_eq_aux (cs : List Char) (a : Nat) :
    cs.foldl (fun acc c => acc * 10 + decDigitValue c) a
      = a * 10 ^ cs.length + decimalValue cs := by
  induction cs generalizing a with
  | nil => simp [decimalValue_nil]
  | cons c cs ih =>
    rw [List.foldl_cons, ih, decimalValue_cons]
    simp only [decDigitValue, List.length_cons]
    ring

theorem digitsValue_eq (cs : List Char) :
    digitsValue 10 decDigitValue cs = decimalValue cs := by
  unfold digitsValue
  rw [digitsValue_eq_aux]
  simp

theorem decimalValue_zeros (k : Nat) (cs : List Char) :
    decimalValue (List.replicate k '0' ++ cs) = decimalValue cs := by
  induction k with
  | zero => simp
  | succ k ih =>
    rw [List.replicate_succ, List.cons_append, decimalValue_cons, ih]
    simp

theorem digitChar_value (d : Nat) (hd : d < 10) : (Nat.digitChar d).toNat - 48 = d := by
  interval_cases d <;> rfl

theorem decimalValue_toDigitsCore (fuel n : Nat) (ds : List Char) (h : n < fuel) :
    decimalValue (Nat.toDigitsCore 10 fuel n ds) = n * 10 ^ ds.length + decimalValue ds := by
  induction fuel generalizing n ds with
  | zero => omega
  | succ fuel ih =>
    unfold Nat.toDigitsCore
    simp only []
    have hmod : n % 10 < 10 := Nat.mod_lt _ (by norm_num)
    have hdecomp : n = 10 * (n / 10) + n % 10 := (Nat.div_add_mod n 10).symm
    split_ifs with h0
    · rw [decimalValue_cons, digitChar_value _ hmod]
      have : n = n % 10 := by omega
      rw [← this]
    · have hlt : n / 10 < fuel := by omega
      rw [ih (n / 10) _ hlt, decimalValue_cons, digitChar_value _ hmod]
      simp only [List.length_cons]
      nth_rewrite 3 [hdecomp]
      ring

theorem decimalValue_repr (n : Nat) : decimalValue (Nat.repr n).data = n := by
  unfold Nat.repr Nat.toDigits
  simp only [List.asString]
  rw [decimalValue_toDigitsCore _ _ _ (Nat.lt_succ_self n)]
  simp [decimalValue_nil]

theorem padStart3_eq_zeroPad3 (s : String) : padStart3 s = zeroPad3 s := by
  unfold padStart3 zeroPad3
  apply String.ext
  have hlen : s.length = s.data.length := rfl
  split_ifs with h1 h2 h3
  · have : 3 - s.length = 0 := by omega
    simp [this]
  · simp [h2, String.data_append]
  · simp [h3, String.data_append]
  · have : s.length = 0 := by omega
    simp [this, String.data_append]

theorem digit_bounds (c : Char) (h : c.isDigit = true) : 48 ≤ c.toNat ∧ c.toNat ≤ 57 := by
  simp only [Char.isDigit, Bool.and_eq_true, decide_eq_true_eq] at h
  exact ⟨h.1, h.2⟩

theorem digit_not_whiteSpace (c : Char) (h : c.isDigit = true) : isJsWhiteSpace c = false := by
  have hb := digit_bounds c h
  simp only [isJsWhiteSpace, Bool.or_eq_false_iff, Bool.and_eq_false_imp, decide_eq_false_iff_not,
    decide_eq_true_eq, List.mem_cons, List.mem_singleton, List.not_mem_nil, or_false, not_or]
  omega

theorem parseInt_digits (c : Char) (cs : List Char) (hc : c.isDigit = true)
    (hcs : cs.all Char.isDigit = true) (hle : decimalValue (c :: cs) ≤ 2 ^ 53) :
    parseInt (String.mk (c :: cs)) = JsInt.int ((decimalValue (c :: cs) : Nat) : Int) := by
  have hall : ∀ x ∈ c :: cs, x.isDigit = true := by
    intro x hx
    rcases List.mem_cons.mp hx with hx | hx
    · rw [hx]; exact hc
    · exact List.all_eq_true.mp hcs x hx
  have htw : (c :: cs).takeWhile Char.isDigit = c :: cs := by
    rw [List.takeWhile_eq_self_iff]
    exact hall
  have hdrop : (c :: cs).dropWhile isJsWhiteSpace = c :: cs := by
    simp [List.dropWhile_cons, digit_not_whiteSpace c hc]
  have hminus : c ≠ '-' := by
    intro h; rw [h] at hc; exact absurd hc (by decide)
  have hplus : c ≠ '+' := by
    intro h; rw [h] at hc; exact absurd hc (by decide)
  have hsign : parseIntSign (c :: cs) = 1 := by
    unfold parseIntSign
    split
    · next heq => cases heq; exact absurd rfl hminus
    · rfl
  have hdropSign : parseIntDropSign (c :: cs) = c :: cs := by
    unfold parseIntDropSign
    split
    · next heq => cases heq; exact absurd rfl hminus
    · next heq => cases heq; exact absurd rfl hplus
    · rfl
  have hmag : parseIntMagnitude (c :: cs)
      = Parsed.num (digitsValue 10 decDigitValue (c :: cs)) := by
    unfold parseIntMagnitude
    split
    · next heq =>
      cases heq
      exact absurd (hall 'x' (by simp)) (by decide)
    · next heq =>
      cases heq
      exact absurd (hall 'X' (by simp)) (by decide)
    · simp [htw]
  unfold parseInt
  simp only [hdrop, hdropSign, hmag, hsign, digitsValue_eq, one_mul]
  exact toDouble_of_le _ hle

theorem patientId_data (s : String) (h : isPatientId s = true) :
    ∃ c cs, s.data = 'P' :: c :: cs ∧ c.isDigit = true ∧ cs.all Char.isDigit = true := by
  unfold isPatientId at h
  split at h
  · next ds heq =>
    cases ds with
    | nil => simp at h
    | cons c cs =>
      refine ⟨c, cs, heq, ?_⟩
      simpa using h
  · exact absurd h (by simp)

theorem idNumber_of_patientId (s : String) (h : isPatientId s = true)
    (hle : numericSuffix s ≤ 2 ^ 53) :
    orZero (parseInt (replaceFirstP (if s = "" then "P000" else s)))
      = JsInt.int ((numericSuffix s : Nat) : Int) := by
  obtain ⟨c, cs, hdata, hc, hcs⟩ := patientId_data s h
  have hne : s ≠ "" := by
    intro he
    rw [he] at hdata
    cases hdata
  rw [if_neg hne]
  unfold replaceFirstP
  unfold numericSuffix at hle ⊢
  rw [hdata, List.tail_cons] at hle
  rw [hdata, List.erase_cons_head, List.tail_cons, parseInt_digits c cs hc hcs hle]
  rfl

theorem idNumbers_eq (patients : List Patient)
    (hform : ∀ p ∈ patients, isPatientId p.id = true)
    (hle : ∀ p ∈ patients, numericSuffix p.id ≤ 2 ^ 53) :
    idNumbers patients = patients.map (fun p => JsInt.int ((numericSuffix p.id : Nat) : Int)) := by
  unfold idNumbers
  apply List.map_congr_left
  intro p hp
  exact idNumber_of_patientId p.id (hform p hp) (hle p hp)

theorem jsMax_int (x y : Int) : jsMax (JsInt.int x) (JsInt.int y) = JsInt.int (max x y) := rfl

theorem foldl_jsMax_cast (l : List Nat) (x : Nat) :
    (l.map (fun n : Nat => JsInt.int (n : Int))).foldl jsMax (JsInt.int (x : Int))
      = JsInt.int ((max x (l.foldr max 0) : Nat) : Int) := by
  induction l generalizing x with
  | nil => simp
  | cons y ys ih =>
    rw [List.map_cons, List.foldl_cons, jsMax_int, ← Nat.cast_max, ih, List.foldr_cons,
      max_assoc]

theorem maxId_eq (patients : List Patient)
    (hform : ∀ p ∈ patients, isPatientId p.id = true)
    (hle : ∀ p ∈ patients, numericSuffix p.id ≤ 2 ^ 53) :
    (match idNumbers patients with
      | [] => JsInt.int 0
      | x :: xs => mathMax x xs) = JsInt.int ((maxSuffix patients : Nat) : Int) := by
  rw [idNumbers_eq patients hform hle]
  unfold maxSuffix mathMax
  cases patients with
  | nil => simp
  | cons p ps =>
    simp only [List.map_cons, List.foldr_cons]
    have := foldl_jsMax_cast (ps.map (fun p => numericSuffix p.id)) (numericSuffix p.id)
    rw [List.map_map] at this
    simpa [Function.comp_def] using this

theorem foldr_max_lt (l : List Nat) (b : Nat) (hb : 0 < b) (h : ∀ x ∈ l, x < b) :
    l.foldr max 0 < b := by
  induction l with
  | nil => simpa using hb
  | cons y ys ih =>
    rw [List.foldr_cons]
    have hy : y < b := h y (List.mem_cons_self _ _)
    have hys : ys.foldr max 0 < b := ih (fun x hx => h x (List.mem_cons_of_mem _ hx))
    exact max_lt hy hys

theorem maxSuffix_lt (patients : List Patient)
    (hsafe : ∀ p ∈ patients, numericSuffix p.id < 2 ^ 53) : maxSuffix patients < 2 ^ 53 := by
  unfold maxSuffix
  apply foldr_max_lt _ _ (by norm_num)
  intro x hx
  obtain ⟨p, hp, hpx⟩ := List.mem_map.mp hx
  rw [← hpx]
  exact hsafe p hp

theorem jsAddOne_of_lt (m : Nat) (h : m < 2 ^ 53) :
    jsAddOne (JsInt.int (m : Int)) = JsInt.int ((m + 1 : Nat) : Int) := by
  unfold jsAddOne
  have := toDouble_of_le (m + 1) h
  simpa using this

theorem nextId_eq_padStart (patients : List Patient)
    (hform : ∀ p ∈ patients, isPatientId p.id = true)
    (hsafe : ∀ p ∈ patients, numericSuffix p.id < 2 ^ 53) :
    nextId patients = "P" ++ padStart3 (Nat.repr (maxSuffix patients + 1)) := by
  have hlt := maxSuffix_lt patients hsafe
  unfold nextId
  rw [maxId_eq patients hform (fun p hp => le_of_lt (hsafe p hp)),
    jsAddOne_of_lt _ hlt, numberToString_of_le _ (Nat.succ_pos _) hlt]

theorem nextId_eq (patients : List Patient)
    (hform : ∀ p ∈ patients, isPatientId p.id = true)
    (hsafe : ∀ p ∈ patients, numericSuffix p.id < 2 ^ 53) :
    nextId patients = "P" ++ zeroPad3 (Nat.repr (maxSuffix patients + 1)) := by
  rw [nextId_eq_padStart patients hform hsafe, padStart3_eq_zeroPad3]

theorem numericSuffix_nextId (patients : List Patient)
    (hform : ∀ p ∈ patients, isPatientId p.id = true)
    (hsafe : ∀ p ∈ patients, numericSuffix p.id < 2 ^ 53) :
    numericSuffix (nextId patients) = maxSuffix patients + 1 := by
  rw [nextId_eq_padStart patients hform hsafe]
  unfold numericSuffix padStart3
  rw [String.data_append]
  show decimalValue (List.replicate _ '0' ++ (Nat.repr (maxSuffix patients + 1)).data) = _
  rw [decimalValue_zeros, decimalValue_repr]

theorem toDouble_pow53_succ : toDouble (((2 ^ 53 : Nat) : Int) + 1) = JsInt.int ((2 ^ 53 : Nat) : Int) := by
  unfold toDouble
  have hr : roundNat ((((2 ^ 53 : Nat) : Int) + 1).natAbs) = 2 ^ 53 := by
    have : (((2 ^ 53 : Nat) : Int) + 1).natAbs = 2 ^ 53 + 1 := by omega
    rw [this]
    exact roundNat_pow53_succ
  have hlt : ¬ (2 ^ 1024 ≤ 2 ^ 53) := not_le.mpr pow53_lt_pow1024
  have hneg : ¬ ((((2 ^ 53 : Nat) : Int) + 1) < 0) := by omega
  simp only [hr, hlt, hneg, if_false]

theorem nextId_at_pow53 :
    nextId [⟨"P9007199254740992", 1, "Ann", 40, [], [], false, false⟩]
      = "P9007199254740992" := by
  have hsuf : numericSuffix "P9007199254740992" = 2 ^ 53 := by decide
  have hid : idNumbers [⟨"P9007199254740992", 1, "Ann", 40, [], [], false, false⟩]
      = [JsInt.int ((2 ^ 53 : Nat) : Int)] := by
    rw [idNumbers_eq _ (by decide) (by
      intro p hp
      rw [List.mem_singleton] at hp
      rw [hp]
      exact le_of_eq hsuf)]
    simp only [List.map_cons, List.map_nil, hsuf]
  unfold nextId
  rw [hid]
  simp only [mathMax, List.foldl_nil, jsAddOne]
  rw [toDouble_pow53_succ, numberToString_of_le _ (by norm_num) (le_refl _)]
  decide

theorem le_foldr_max (l : List Nat) (x : Nat) (hx : x ∈ l) : x ≤ l.foldr max 0 := by
  induction l with
  | nil => simp at hx
  | cons y ys ih =>
    rw [List.foldr_cons]
    rcases List.mem_cons.mp hx with h | h
    · rw [h]; exact le_max_left _ _
    · exact le_trans (ih h) (le_max_right _ _)

theorem numericSuffix_le_maxSuffix (patients : List Patient) (p : Patient)
    (hp : p ∈ patients) : numericSuffix p.id ≤ maxSuffix patients :=
  le_foldr_max _ _ (List.mem_map.mpr ⟨p, hp, rfl⟩)

theorem addNewPatient_ok (patients patients1 : List Patient) (name : String)
    (age bed : Parsed Int)
    (hok : addNewPatient patients name age bed = (Outcome.ok, patients1)) :
    ∃ a b, patients1 = patients ++ [⟨nextId patients, b, name, a, [], [], false, false⟩] := by
  unfold addNewPatient at hok
  split_ifs at hok with hname
  · cases hok
  · cases age with
    | nan => cases hok
    | num a =>
      simp only [] at hok
      split_ifs at hok with ha
      · cases hok
      · cases bed with
        | nan => cases hok
        | num b =>
          simp only [] at hok
          split_ifs at hok with hb htaken
          · cases hok
          · cases hok
          · cases hok
            exact ⟨a, b, rfl⟩

/-! ## Fever-free streak -/

/-- C1: for a patient whose record dates are `YYYY-MM-DD` strings, `feverFreeDays` is the length
of the longest prefix of the distinct record dates in descending order on which the minimum
temperature of the date is strictly below 37.5; it is 0 without records, 0 for a single record
at exactly 37.5, and 2 for the records 2024-01-01: 38.0, 2024-01-02: 37.0, 2024-01-03: 36.5. -/
theorem feverFreeDays_longest_run (p : Patient)
    (_hiso : ∀ r ∈ p.records, isIsoDate r.date = true) :
    feverFreeDays p = feverFreeDaysSpec p
    ∧ (p.records = [] → feverFreeDays p = 0)
    ∧ (∀ today : String, p.records = [⟨today, 37.5⟩] → feverFreeDays p = 0)
    ∧ (p.records = [⟨"2024-01-01", 38.0⟩, ⟨"2024-01-02", 37.0⟩, ⟨"2024-01-03", 36.5⟩] →
        feverFreeDays p = 2) := by
  refine ⟨feverFreeDays_eq_spec p, ?_, ?_, ?_⟩
  · intro h
    simp [feverFreeDays, h]
  · intro today h
    simp [feverFreeDays, h, buildMap, mapStep, mapSet, mapGet, sortedDates, streakLoop,
      TEMP_THRESHOLD]
  · intro h
    simp [feverFreeDays, h, buildMap, mapStep, mapSet, mapGet, sortedDates, localeCompare,
      streakLoop, TEMP_THRESHOLD]
    norm_num

/-- Witness for C1: the patient of the example, whose streak is 2. -/
theorem feverFreeDays_longest_run_witness :
    (∀ r ∈ [(⟨"2024-01-01", 38.0⟩ : TempRecord), ⟨"2024-01-02", 37.0⟩, ⟨"2024-01-03", 36.5⟩],
        isIsoDate r.date = true)
    ∧ feverFreeDays ⟨"P001", 1, "Ann", 40,
        [⟨"2024-01-01", 38.0⟩, ⟨"2024-01-02", 37.0⟩, ⟨"2024-01-03", 36.5⟩], [], false, false⟩
      = 2 :=
  ⟨by decide,
   (feverFreeDays_longest_run ⟨"P001", 1, "Ann", 40,
        [⟨"2024-01-01", 38.0⟩, ⟨"2024-01-02", 37.0⟩, ⟨"2024-01-03", 36.5⟩], [], false, false⟩
      (by decide)).2.2.2 rfl⟩

/-! ## Status -/

/-- C2: for an active patient, `computeStatus` is NeedsTemp without a temperature record dated
today, otherwise NeedsVisit without a visit dated today, otherwise EligibleDischarge when
`feverFreeDays` is at least 3, otherwise StableToday. -/
theorem computeStatus_active (p : Patient) (today : String)
    (hdis : p.discharged = false) (hdec : p.deceased = false) :
    ((¬ ∃ r ∈ p.records, r.date = today) → computeStatus p today = Status.NeedsTemp)
    ∧ ((∃ r ∈ p.records, r.date = today) → (¬ ∃ v ∈ p.visits, v.date = today) →
        computeStatus p today = Status.NeedsVisit)
    ∧ ((∃ r ∈ p.records, r.date = today) → (∃ v ∈ p.visits, v.date = today) →
        feverFreeDays p ≥ 3 → computeStatus p today = Status.EligibleDischarge)
    ∧ ((∃ r ∈ p.records, r.date = today) → (∃ v ∈ p.visits, v.date = today) →
        ¬ feverFreeDays p ≥ 3 → computeStatus p today = Status.StableToday) := by
  refine ⟨?_, ?_, ?_, ?_⟩
  · intro h
    have h' : p.records.any (fun r => r.date == today) = false := by
      rw [List.any_eq_false]
      intro r hr hd
      exact h ⟨r, hr, by simpa using hd⟩
    simp [computeStatus, hdis, hdec, h']
  · intro ht hv
    have ht' : p.records.any (fun r => r.date == today) = true := by
      obtain ⟨r, hr, hd⟩ := ht
      exact List.any_eq_true.mpr ⟨r, hr, by simpa using hd⟩
    have hv' : p.visits.any (fun v => v.date == today) = false := by
      rw [List.any_eq_false]
      intro v hv1 hd
      exact hv ⟨v, hv1, by simpa using hd⟩
    simp [computeStatus, hdis, hdec, ht', hv']
  · intro ht hv hf
    have ht' : p.records.any (fun r => r.date == today) = true := by
      obtain ⟨r, hr, hd⟩ := ht
      exact List.any_eq_true.mpr ⟨r, hr, by simpa using hd⟩
    have hv' : p.visits.any (fun v => v.date == today) = true := by
      obtain ⟨v, hv1, hd⟩ := hv
      exact List.any_eq_true.mpr ⟨v, hv1, by simpa using hd⟩
    simp [computeStatus, hdis, hdec, ht', hv', hf]
  · intro ht hv hf
    have ht' : p.records.any (fun r => r.date == today) = true := by
      obtain ⟨r, hr, hd⟩ := ht
      exact List.any_eq_true.mpr ⟨r, hr, by simpa using hd⟩
    have hv' : p.visits.any (fun v => v.date == today) = true := by
      obtain ⟨v, hv1, hd⟩ := hv
      exact List.any_eq_true.mpr ⟨v, hv1, by simpa using hd⟩
    simp [computeStatus, hdis, hdec, ht', hv', hf]

/-- Witness for C2: an active patient with a temperature record but no visit today. -/
theorem computeStatus_active_witness :
    computeStatus ⟨"P001", 1, "Ann", 40, [⟨"2024-01-03", 36.5⟩], [], false, false⟩ "2024-01-03"
      = Status.NeedsVisit :=
  (computeStatus_active ⟨"P001", 1, "Ann", 40, [⟨"2024-01-03", 36.5⟩], [], false, false⟩
    "2024-01-03" rfl rfl).2.1 ⟨⟨"2024-01-03", 36.5⟩, by simp, rfl⟩ (by simp)

/-- C3, as stated, fails: a patient with `deceased = true` and `discharged = true` and no
temperature record today is reported Discharged, not Deceased. -/
theorem deceased_discharged_reports_discharged :
    computeStatus ⟨"P001", 1, "Ann", 40, [], [], true, true⟩ "2024-01-03" = Status.Discharged
    ∧ Status.Discharged ≠ Status.Deceased
    ∧ ¬ ∀ (p : Patient) (today : String), p.deceased = true →
        computeStatus p today = Status.Deceased := by
  refine ⟨by decide, by decide, ?_⟩
  intro h
  have h1 := h ⟨"P001", 1, "Ann", 40, [], [], true, true⟩ "2024-01-03" rfl
  revert h1
  decide

/-- C3, amended: a patient with `deceased = true` is reported Deceased when `discharged` is
false, whatever the other fields are, and Discharged when `discharged` is true. -/
theorem computeStatus_deceased (p : Patient) (today : String) (hdec : p.deceased = true) :
    (p.discharged = false → computeStatus p today = Status.Deceased)
    ∧ (p.discharged = true → computeStatus p today = Status.Discharged) := by
  constructor
  · intro hdis
    simp [computeStatus, hdis, hdec]
  · intro hdis
    simp [computeStatus, hdis]

/-- Witness for C3 amended: a deceased patient who was not discharged. -/
theorem computeStatus_deceased_witness :
    computeStatus ⟨"P001", 1, "Ann", 40, [], [], false, true⟩ "2024-01-03" = Status.Deceased :=
  (computeStatus_deceased ⟨"P001", 1, "Ann", 40, [], [], false, true⟩ "2024-01-03" rfl).1 rfl

/-! ## Discharge -/

/-- C4: for the patient `p` that `pid` selects in the collection, `adminDischarge` ends with
NotEligible exactly when `feverFreeDays p < 3`, and then the collection is unchanged; otherwise
it succeeds, the collection differs only in that `p` has `discharged = true`, and a second
discharge on the result succeeds and returns the same collection. -/
theorem adminDischarge_gate (patients : List Patient) (pid : String) (p : Patient)
    (hpid : pid ≠ "") (hfind : patients.find? (fun x => x.id == pid) = some p) :
    ((adminDischarge patients pid).1 = Outcome.notEligible ↔ feverFreeDays p < 3)
    ∧ (feverFreeDays p < 3 → (adminDischarge patients pid).2 = patients)
    ∧ (¬ feverFreeDays p < 3 →
        ∃ pre post, patients = pre ++ p :: post ∧ (∀ q ∈ pre, q.id ≠ pid) ∧
          adminDischarge patients pid
            = (Outcome.ok, pre ++ { p with discharged := true } :: post) ∧
          adminDischarge (pre ++ { p with discharged := true } :: post) pid
            = (Outcome.ok, pre ++ { p with discharged := true } :: post)) := by
  obtain ⟨hid, pre, post, hsplit, hpre⟩ := find_split patients pid p hfind
  refine ⟨?_, ?_, ?_⟩
  · by_cases hf : feverFreeDays p < 3
    · simp [adminDischarge, hpid, hfind, hf]
    · simp [adminDischarge, hpid, hfind, hf]
  · intro hf
    simp [adminDischarge, hpid, hfind, hf]
  · intro hf
    refine ⟨pre, post, hsplit, hpre, ?_, ?_⟩
    · have hu := updateFound_append pid (fun q => { q with discharged := true }) pre post p
        hpre hid
      simp only [adminDischarge, hpid, hfind, hf, if_false]
      rw [hsplit, hu]
    · have hid' : ({ p with discharged := true } : Patient).id = pid := hid
      have hfind' := find_append pid pre post { p with discharged := true } hpre hid'
      have hu := updateFound_append pid (fun q => { q with discharged := true }) pre post
        { p with discharged := true } hpre hid'
      have hf' : ¬ feverFreeDays ({ p with discharged := true } : Patient) < 3 := hf
      simp only [adminDischarge, hpid, hfind', hf', if_false]
      rw [hu]

/-- Witness for C4: patient `P001` with two fever-free days is selected. -/
theorem adminDischarge_gate_witness :
    (adminDischarge [⟨"P001", 1, "Ann", 40,
        [⟨"2024-01-01", 38.0⟩, ⟨"2024-01-02", 37.0⟩, ⟨"2024-01-03", 36.5⟩], [], false, false⟩]
      "P001").1 = Outcome.notEligible ↔
    feverFreeDays ⟨"P001", 1, "Ann", 40,
        [⟨"2024-01-01", 38.0⟩, ⟨"2024-01-02", 37.0⟩, ⟨"2024-01-03", 36.5⟩], [], false, false⟩
      < 3 :=
  (adminDischarge_gate [⟨"P001", 1, "Ann", 40,
        [⟨"2024-01-01", 38.0⟩, ⟨"2024-01-02", 37.0⟩, ⟨"2024-01-03", 36.5⟩], [], false, false⟩]
      "P001" ⟨"P001", 1, "Ann", 40,
        [⟨"2024-01-01", 38.0⟩, ⟨"2024-01-02", 37.0⟩, ⟨"2024-01-03", 36.5⟩], [], false, false⟩
      (by decide) rfl).1

/-! ## Recording a temperature -/

/-- C5: after a `recordTemperature` for a patient and a date has succeeded with `t1`, a second
one for the same patient and date with a valid `t2` ends with DuplicateForDate and leaves the
collection unchanged; the selected patient's only record for that date holds `t1`. -/
theorem recordTemperature_twice (patients patients1 : List Patient) (pid today : String)
    (t1 t2 : ℚ) (ht2 : t2 ≠ 0)
    (hfirst : recordTemperature patients pid (Parsed.num t1) today = (Outcome.ok, patients1)) :
    recordTemperature patients1 pid (Parsed.num t2) today
      = (Outcome.duplicateForDate, patients1)
    ∧ ∃ p1, patients1.find? (fun x => x.id == pid) = some p1 ∧
        (⟨today, t1⟩ : TempRecord) ∈ p1.records ∧
        ∀ r ∈ p1.records, r.date = today → r.temp = t1 := by
  unfold recordTemperature at hfirst
  by_cases hpid : pid = ""
  · simp [hpid] at hfirst
  by_cases ht1 : t1 = 0
  · simp [hpid, ht1] at hfirst
  cases hfind : patients.find? (fun x => x.id == pid) with
  | none => simp [hpid, ht1, hfind] at hfirst
  | some p =>
    by_cases hany : p.records.any (fun r => r.date == today) = true
    · simp [hpid, ht1, hfind, hany] at hfirst
    · obtain ⟨hid, pre, post, hsplit, hpre⟩ := find_split patients pid p hfind
      have hu := updateFound_append pid
        (fun q => { q with records := q.records ++ [⟨today, t1⟩] }) pre post p hpre hid
      have hfirst2 : updateFound pid
          (fun q => { q with records := q.records ++ [⟨today, t1⟩] }) patients = patients1 := by
        simpa [hpid, ht1, hfind, hany] using hfirst
      rw [hsplit, hu] at hfirst2
      have hid' : ({ p with records := p.records ++ [⟨today, t1⟩] } : Patient).id = pid := hid
      have hfind' := find_append pid pre post
        { p with records := p.records ++ [⟨today, t1⟩] } hpre hid'
      rw [hfirst2] at hfind'
      have hnone : ∀ r ∈ p.records, r.date ≠ today := by
        intro r hr hd
        apply hany
        exact List.any_eq_true.mpr ⟨r, hr, by simpa using hd⟩
      refine ⟨?_, _, hfind', ?_, ?_⟩
      · simp [recordTemperature, hpid, ht2, hfind']
      · simp
      · intro r hr hd
        simp only [List.mem_append, List.mem_singleton] at hr
        rcases hr with hr | hr
        · exact absurd hd (hnone r hr)
        · rw [hr]

/-- Witness for C5: two recordings for `P001` on 2024-01-03. -/
theorem recordTemperature_twice_witness :
    recordTemperature [⟨"P001", 1, "Ann", 40, [⟨"2024-01-03", 36.5⟩], [], false, false⟩]
      "P001" (Parsed.num 39) "2024-01-03"
    = (Outcome.duplicateForDate,
        [⟨"P001", 1, "Ann", 40, [⟨"2024-01-03", 36.5⟩], [], false, false⟩]) :=
  (recordTemperature_twice [⟨"P001", 1, "Ann", 40, [], [], false, false⟩]
    [⟨"P001", 1, "Ann", 40, [⟨"2024-01-03", 36.5⟩], [], false, false⟩]
    "P001" "2024-01-03" 36.5 39 (by norm_num) (by simp [recordTemperature, updateFound]; norm_num)).1

/-! ## One entry per date -/

/-- C6: if every patient of a collection has pairwise distinct temperature-record dates and
pairwise distinct visit dates, the same holds for the collection stored after
`recordTemperature`, `markDoctorVisit`, `addNewPatient`, `adminDischarge` or `adminMarkDeath`,
whatever their arguments and however they end. -/
theorem onePerDate_preserved (patients : List Patient) (h : OnePerDate patients) :
    (∀ pid tempVal dt, OnePerDate (recordTemperature patients pid tempVal dt).2)
    ∧ (∀ pid notes dt, OnePerDate (markDoctorVisit patients pid notes dt).2)
    ∧ (∀ name age bed, OnePerDate (addNewPatient patients name age bed).2)
    ∧ (∀ pid, OnePerDate (adminDischarge patients pid).2)
    ∧ (∀ pid confirmed, OnePerDate (adminMarkDeath patients pid confirmed).2) := by
  refine ⟨?_, ?_, ?_, ?_, ?_⟩
  · intro pid tempVal dt
    unfold recordTemperature
    split_ifs with hpid
    · exact h
    · cases tempVal with
      | nan => exact h
      | num t =>
        simp only []
        split_ifs with ht
        · exact h
        · cases hfind : patients.find? (fun x => x.id == pid) with
          | none => exact h
          | some p =>
            simp only []
            split_ifs with hany
            · exact h
            · apply onePerDate_updateFound pid _ patients h
              intro q hq
              rw [hfind] at hq
              cases hq
              have hp := h p (find_mem patients pid p hfind)
              refine ⟨?_, hp.2⟩
              simp only [List.map_append, List.map_cons, List.map_nil]
              apply nodup_append_date _ _ hp.1
              intro hmem
              apply hany
              obtain ⟨r, hr, hd⟩ := List.mem_map.mp hmem
              exact List.any_eq_true.mpr ⟨r, hr, by simpa using hd⟩
  · intro pid notes dt
    unfold markDoctorVisit
    split_ifs with hpid
    · exact h
    · cases hfind : patients.find? (fun x => x.id == pid) with
      | none => exact h
      | some p =>
        simp only []
        split_ifs with hany
        · exact h
        · apply onePerDate_updateFound pid _ patients h
          intro q hq
          rw [hfind] at hq
          cases hq
          have hp := h p (find_mem patients pid p hfind)
          refine ⟨hp.1, ?_⟩
          simp only [List.map_append, List.map_cons, List.map_nil]
          apply nodup_append_date _ _ hp.2
          intro hmem
          apply hany
          obtain ⟨v, hv, hd⟩ := List.mem_map.mp hmem
          exact List.any_eq_true.mpr ⟨v, hv, by simpa using hd⟩
  · intro name age bed
    unfold addNewPatient
    split_ifs with hname
    · exact h
    · cases age with
      | nan => exact h
      | num a =>
        simp only []
        split_ifs with ha
        · exact h
        · cases bed with
          | nan => exact h
          | num b =>
            simp only []
            split_ifs with hb htaken
            · exact h
            · exact h
            · intro x hx
              rcases List.mem_append.mp hx with hx | hx
              · exact h x hx
              · rw [List.mem_singleton] at hx
                rw [hx]
                simp
  · intro pid
    unfold adminDischarge
    split_ifs with hpid
    · exact h
    · cases hfind : patients.find? (fun x => x.id == pid) with
      | none => exact h
      | some p =>
        simp only []
        split_ifs with hf
        · exact h
        · apply onePerDate_updateFound pid _ patients h
          intro q hq
          exact h q (find_mem patients pid q hq)
  · intro pid confirmed
    unfold adminMarkDeath
    split_ifs with hpid hc
    · exact h
    · cases hfind : patients.find? (fun x => x.id == pid) with
      | none => exact h
      | some p =>
        apply onePerDate_updateFound pid _ patients h
        intro q hq
        exact h q (find_mem patients pid q hq)
    · exact h

/-- Witness for C6: a collection with one record and one visit, after a second recording. -/
theorem onePerDate_preserved_witness :
    OnePerDate (recordTemperature
      [⟨"P001", 1, "Ann", 40, [⟨"2024-01-02", 37⟩], [⟨"2024-01-02", "ok"⟩], false, false⟩]
      "P001" (Parsed.num 38) "2024-01-03").2 :=
  (onePerDate_preserved
    [⟨"P001", 1, "Ann", 40, [⟨"2024-01-02", 37⟩], [⟨"2024-01-02", "ok"⟩], false, false⟩]
    (by simp [OnePerDate])).1 "P001" (Parsed.num 38) "2024-01-03"

/-! ## Admission -/

/-- C7: for a non-empty name, `age > 0` and `bed > 0`, `addNewPatient` ends with "bed taken"
exactly when an active patient of the collection has that bed, and then the collection is
unchanged; otherwise it succeeds and the collection is the old one followed by one new patient
with that bed, name and age, no records, no visits and both flags false. -/
theorem addNewPatient_bed (patients : List Patient) (name : String) (a b : Int)
    (hname : name ≠ "") (ha : 0 < a) (hb : 0 < b) :
    ((addNewPatient patients name (Parsed.num a) (Parsed.num b)).1 = Outcome.bedTaken ↔
        ∃ p ∈ patients, p.bed = b ∧ p.discharged = false ∧ p.deceased = false)
    ∧ ((∃ p ∈ patients, p.bed = b ∧ p.discharged = false ∧ p.deceased = false) →
        (addNewPatient patients name (Parsed.num a) (Parsed.num b)).2 = patients)
    ∧ ((¬ ∃ p ∈ patients, p.bed = b ∧ p.discharged = false ∧ p.deceased = false) →
        addNewPatient patients name (Parsed.num a) (Parsed.num b)
          = (Outcome.ok, patients ++ [⟨nextId patients, b, name, a, [], [], false, false⟩])) := by
  have ha' : ¬ (a = 0 ∨ a ≤ 0) := by omega
  have hb' : ¬ (b = 0 ∨ b ≤ 0) := by omega
  have hiff : patients.any (fun p => p.bed == b && !p.discharged && !p.deceased) = true ↔
      ∃ p ∈ patients, p.bed = b ∧ p.discharged = false ∧ p.deceased = false := by
    rw [List.any_eq_true]
    constructor
    · rintro ⟨p, hp, hq⟩
      refine ⟨p, hp, ?_⟩
      simpa [and_assoc] using hq
    · rintro ⟨p, hp, hq⟩
      refine ⟨p, hp, ?_⟩
      simpa [and_assoc] using hq
  by_cases htaken : patients.any (fun p => p.bed == b && !p.discharged && !p.deceased) = true
  · have hex := hiff.mp htaken
    refine ⟨?_, ?_, ?_⟩
    · simp only [addNewPatient, hname, ha', hb', htaken, if_true, if_false, true_iff]
      exact hex
    · intro _
      simp only [addNewPatient, hname, ha', hb', htaken, if_true, if_false]
    · intro hno
      exact absurd hex hno
  · have hno : ¬ ∃ p ∈ patients, p.bed = b ∧ p.discharged = false ∧ p.deceased = false :=
      fun hex => htaken (hiff.mpr hex)
    refine ⟨?_, ?_, ?_⟩
    · simp only [addNewPatient, hname, ha', hb', htaken, if_false]
      constructor
      · intro hc
        cases hc
      · intro hex
        exact absurd hex hno
    · intro hex
      exact absurd hex hno
    · intro _
      simp [addNewPatient, hname, ha', hb', htaken]

/-- Witness for C7: bed 4 is held by a discharged patient only, so it is accepted. -/
theorem addNewPatient_bed_witness :
    addNewPatient [⟨"P001", 4, "Ann", 40, [], [], true, false⟩] "Bob" (Parsed.num 30)
        (Parsed.num 4)
      = (Outcome.ok, [⟨"P001", 4, "Ann", 40, [], [], true, false⟩] ++
          [⟨nextId [⟨"P001", 4, "Ann", 40, [], [], true, false⟩], 4, "Bob", 30, [], [],
            false, false⟩]) :=
  (addNewPatient_bed [⟨"P001", 4, "Ann", 40, [], [], true, false⟩] "Bob" 30 4
    (by decide) (by decide) (by decide)).2.2 (by simp)

/-! ## Generated ids -/

/-- C8, as stated, fails: the id number is computed in doubles, where `2 ^ 53 + 1` rounds to
`2 ^ 53`; in a collection holding the id `P9007199254740992` the next admission is given
`P9007199254740992` again. -/
theorem unsafe_suffix_reissues_id :
    (∀ p ∈ [(⟨"P9007199254740992", 1, "Ann", 40, [], [], false, false⟩ : Patient)],
        isPatientId p.id = true)
    ∧ addNewPatient [⟨"P9007199254740992", 1, "Ann", 40, [], [], false, false⟩] "Bob"
          (Parsed.num 30) (Parsed.num 2)
        = (Outcome.ok, [⟨"P9007199254740992", 1, "Ann", 40, [], [], false, false⟩,
            ⟨"P9007199254740992", 2, "Bob", 30, [], [], false, false⟩])
    ∧ ¬ ∀ (patients patients1 : List Patient) (name : String) (age bed : Parsed Int),
        (∀ p ∈ patients, isPatientId p.id = true) →
        addNewPatient patients name age bed = (Outcome.ok, patients1) →
        ∃ q, patients1 = patients ++ [q] ∧ ∀ p ∈ patients, p.id ≠ q.id := by
  have hadd : addNewPatient [⟨"P9007199254740992", 1, "Ann", 40, [], [], false, false⟩] "Bob"
          (Parsed.num 30) (Parsed.num 2)
        = (Outcome.ok, [⟨"P9007199254740992", 1, "Ann", 40, [], [], false, false⟩,
            ⟨"P9007199254740992", 2, "Bob", 30, [], [], false, false⟩]) := by
    simp [addNewPatient, nextId_at_pow53]
  refine ⟨by decide, hadd, ?_⟩
  intro h
  obtain ⟨q, hq, hne⟩ := h _ _ _ _ _ (by decide) hadd
  have hq2 : q = ⟨"P9007199254740992", 2, "Bob", 30, [], [], false, false⟩ := by
    simpa using hq.symm
  exact hne ⟨"P9007199254740992", 1, "Ann", 40, [], [], false, false⟩ (by simp) (by rw [hq2])

/-- C8, amended: in a collection whose ids all are `P` followed by decimal digits with a numeric
suffix below `2 ^ 53`, the patient that a successful `addNewPatient` appends has the id `P`
followed by (largest numeric suffix of the existing ids, 0 for the empty collection) + 1 in
decimal, zero-padded to at least 3 digits; the numeric suffix of that id is that number, the id
is `P001` for the empty collection, and it differs from the id of every patient already in the
collection. -/
theorem addNewPatient_id (patients patients1 : List Patient) (name : String)
    (age bed : Parsed Int)
    (hform : ∀ p ∈ patients, isPatientId p.id = true)
    (hsafe : ∀ p ∈ patients, numericSuffix p.id < 2 ^ 53)
    (hok : addNewPatient patients name age bed = (Outcome.ok, patients1)) :
    ∃ q, patients1 = patients ++ [q]
      ∧ q.id = "P" ++ zeroPad3 (toString (maxSuffix patients + 1))
      ∧ numericSuffix q.id = maxSuffix patients + 1
      ∧ (patients = [] → q.id = "P001")
      ∧ ∀ p ∈ patients, p.id ≠ q.id := by
  obtain ⟨a, b, h1⟩ := addNewPatient_ok patients patients1 name age bed hok
  have hid := nextId_eq patients hform hsafe
  refine ⟨_, h1, hid, numericSuffix_nextId patients hform hsafe, ?_, ?_⟩
  · intro he
    show nextId patients = "P001"
    rw [hid, he]
    decide
  · intro p hp heq
    have hle := numericSuffix_le_maxSuffix patients p hp
    have hnext := numericSuffix_nextId patients hform hsafe
    simp only [] at heq
    rw [← heq] at hnext
    omega

/-- Witness for C8 amended: after `P007` and `P012` the next admission gets `P013`. -/
theorem addNewPatient_id_witness :
    ∃ q, [(⟨"P007", 1, "Ann", 40, [], [], false, false⟩ : Patient),
          ⟨"P012", 2, "Bob", 30, [], [], false, false⟩,
          ⟨"P013", 3, "Cy", 20, [], [], false, false⟩]
        = [⟨"P007", 1, "Ann", 40, [], [], false, false⟩,
           ⟨"P012", 2, "Bob", 30, [], [], false, false⟩] ++ [q]
      ∧ q.id = "P" ++ zeroPad3 (toString (maxSuffix
          [⟨"P007", 1, "Ann", 40, [], [], false, false⟩,
           ⟨"P012", 2, "Bob", 30, [], [], false, false⟩] + 1))
      ∧ numericSuffix q.id = maxSuffix
          [⟨"P007", 1, "Ann", 40, [], [], false, false⟩,
           ⟨"P012", 2, "Bob", 30, [], [], false, false⟩] + 1
      ∧ (([⟨"P007", 1, "Ann", 40, [], [], false, false⟩,
           ⟨"P012", 2, "Bob", 30, [], [], false, false⟩] : List Patient) = [] → q.id = "P001")
      ∧ ∀ p ∈ [(⟨"P007", 1, "Ann", 40, [], [], false, false⟩ : Patient),
           ⟨"P012", 2, "Bob", 30, [], [], false, false⟩], p.id ≠ q.id :=
  addNewPatient_id
    [⟨"P007", 1, "Ann", 40, [], [], false, false⟩, ⟨"P012", 2, "Bob", 30, [], [], false, false⟩]
    [⟨"P007", 1, "Ann", 40, [], [], false, false⟩, ⟨"P012", 2, "Bob", 30, [], [], false, false⟩,
     ⟨"P013", 3, "Cy", 20, [], [], false, false⟩]
    "Cy" (Parsed.num 20) (Parsed.num 3) (by decide) (by decide)
    (by
      have hid : nextId [⟨"P007", 1, "Ann", 40, [], [], false, false⟩,
          ⟨"P012", 2, "Bob", 30, [], [], false, false⟩] = "P013" := by
        rw [nextId_eq _ (by decide) (by decide)]
        decide
      simp [addNewPatient, hid])

/-! ## Invalid temperature readings -/

/-- C9, as stated, fails: a negative reading is not rejected; the reading -1 for patient
`P001`, who has no record today, is stored. -/
theorem negative_reading_is_stored :
    recordTemperature [⟨"P001", 1, "Ann", 40, [], [], false, false⟩] "P001"
        (Parsed.num (-1)) "2024-01-03"
      = (Outcome.ok, [⟨"P001", 1, "Ann", 40, [⟨"2024-01-03", -1⟩], [], false, false⟩])
    ∧ ¬ ∀ (patients : List Patient) (p : Patient) (today : String) (t : ℚ),
        p ∈ patients → t < 0 →
        recordTemperature patients p.id (Parsed.num t) today
          = (Outcome.invalidValue, patients) := by
  refine ⟨by decide, ?_⟩
  intro h
  have h1 := h [⟨"P001", 1, "Ann", 40, [], [], false, false⟩]
    ⟨"P001", 1, "Ann", 40, [], [], false, false⟩ "2024-01-03" (-1) (by simp) (by norm_num)
  revert h1
  decide

/-- C9, amended: for a selected patient, `recordTemperature` ends with InvalidValue exactly when
the reading is `NaN` or zero, and then the collection is unchanged; a negative reading is not
rejected as invalid. -/
theorem recordTemperature_invalid (patients : List Patient) (pid today : String)
    (tempVal : Parsed ℚ) (hpid : pid ≠ "") :
    ((recordTemperature patients pid tempVal today).1 = Outcome.invalidValue ↔
        (tempVal = Parsed.nan ∨ tempVal = Parsed.num 0))
    ∧ ((tempVal = Parsed.nan ∨ tempVal = Parsed.num 0) →
        (recordTemperature patients pid tempVal today).2 = patients) := by
  cases tempVal with
  | nan => simp [recordTemperature, hpid]
  | num t =>
    by_cases ht : t = 0
    · simp [recordTemperature, hpid, ht]
    · have hne : ¬ (Parsed.num t = (Parsed.num 0 : Parsed ℚ)) := by
        intro hc
        cases hc
        exact ht rfl
      refine ⟨?_, ?_⟩
      · simp only [recordTemperature, hpid, ht, if_false, hne, or_false, iff_false,
          reduceCtorEq]
        cases patients.find? (fun x => x.id == pid) with
        | none => simp
        | some p =>
          simp only []
          split_ifs <;> simp
      · rintro (hc | hc)
        · cases hc
        · exact absurd hc hne

/-- Witness for C9 amended: a zero reading for `P001`. -/
theorem recordTemperature_invalid_witness :
    (recordTemperature [⟨"P001", 1, "Ann", 40, [], [], false, false⟩] "P001"
        (Parsed.num 0) "2024-01-03").2
      = [⟨"P001", 1, "Ann", 40, [], [], false, false⟩] :=
  (recordTemperature_invalid [⟨"P001", 1, "Ann", 40, [], [], false, false⟩] "P001"
    "2024-01-03" (Parsed.num 0) (by decide)).2 (Or.inr rfl)

/-! ## KPIs -/

/-- C10: for the empty collection and every date, `renderKPIs` gives total 0, discharged
count 0 and the three percentages 0; the quotient `count/total` is not formed, the guard
`total ? ... : 0` takes its second branch. -/
theorem renderKPIs_empty (today : String) :
    renderKPIs [] today
      = { total := 0, tempCompliancePct := 0, visitCompliancePct := 0, dischargedCount := 0,
          mortalityPct := 0 }
    ∧ ∀ count : Nat, percentOf count 0 = 0 := by
  constructor
  · simp [renderKPIs, percentOf]
  · intro count
    simp [percentOf]

end Quarantine
